import Mathlib

/-
  Shallow embedding of the Z-boson two-lepton reduction pipeline
  (notebook ZBoson-Main-Analysis.ipynb): per-event selection, two-lepton
  reconstruction, sample attribution by cumulative row index, and
  per-event weights, for the three analysis loops (signal, background,
  data).  Python floats are modelled as real numbers; the ROOT
  TLorentzVector operations used by the notebook are modelled directly.
-/

noncomputable section

namespace ZAnalysis

/-! ## Data model: one event record of the input cursor -/

/-- One lepton of an event, with the per-lepton array fields the
notebook reads (names follow the source branches). -/
structure Lepton where
  lep_pt : ℝ
  lep_eta : ℝ
  lep_phi : ℝ
  lep_E : ℝ
  lep_type : ℤ
  lep_charge : ℝ
  lep_ptcone30 : ℝ
  lep_etcone20 : ℝ
  lep_trackd0pvunbiased : ℝ
  lep_tracksigd0pvunbiased : ℝ
  lep_z0 : ℝ

/-- One event record: trigger flags, the lepton arrays, jet count and the
per-event scale factors used by the weight computation. -/
structure Event where
  trigE : Bool
  trigM : Bool
  leps : List Lepton
  jet_n : ℕ
  mcWeight : ℝ
  scaleFactor_PILEUP : ℝ
  scaleFactor_ELE : ℝ
  scaleFactor_MUON : ℝ
  scaleFactor_LepTRIGGER : ℝ

/-- The lepton count field (`tree.lep_n`); the per-lepton arrays are
indexed `0 .. lep_n - 1`. -/
def Event.lep_n (e : Event) : ℕ := e.leps.length

/-- Placeholder lepton for out-of-range array access (never reached on
records whose arrays have length `lep_n`). -/
def dLep : Lepton := ⟨0, 0, 0, 0, 0, 0, 0, 0, 0, 1, 0⟩

/-- Indexing of the per-lepton arrays: `tree.lep_pt[j]` etc. -/
def Event.lep (e : Event) (j : ℕ) : Lepton := e.leps.getD j dLep

/-! ## Kinematics: ROOT TLorentzVector as used by the notebook -/

/-- A four-momentum in Cartesian components. -/
structure FourVec where
  px : ℝ
  py : ℝ
  pz : ℝ
  E : ℝ

/-- `TLorentzVector::SetPtEtaPhiE`: the standard pseudorapidity/azimuth
parametrization. -/
def setPtEtaPhiE (pt eta phi E : ℝ) : FourVec :=
  ⟨pt * Real.cos phi, pt * Real.sin phi, pt * Real.sinh eta, E⟩

/-- Component-wise four-vector addition (`leadlepton+subleadlepton`). -/
def FourVec.add (a b : FourVec) : FourVec :=
  ⟨a.px + b.px, a.py + b.py, a.pz + b.pz, a.E + b.E⟩

/-- `TLorentzVector::M2`. -/
def FourVec.M2 (v : FourVec) : ℝ := v.E ^ 2 - (v.px ^ 2 + v.py ^ 2 + v.pz ^ 2)

/-- `TLorentzVector::M`: square root of `M2`, negated when `M2` is
negative. -/
def FourVec.M (v : FourVec) : ℝ :=
  if v.M2 < 0 then -Real.sqrt (-v.M2) else Real.sqrt v.M2

/-- `TLorentzVector::Pt`: transverse component of the momentum. -/
def FourVec.Pt (v : FourVec) : ℝ := Real.sqrt (v.px ^ 2 + v.py ^ 2)

/-- The four-vector the notebook builds from a lepton record via
`SetPtEtaPhiE(lep_pt, lep_eta, lep_phi, lep_E)`. -/
def Lepton.vec (l : Lepton) : FourVec :=
  setPtEtaPhiE l.lep_pt l.lep_eta l.lep_phi l.lep_E

/-! ## Signal-path lepton quality conditions -/

/-- `theta = 2*np.arctan(np.exp(-lep_eta))`. -/
def polarTheta (eta : ℝ) : ℝ := 2 * Real.arctan (Real.exp (-eta))

/-- The common precondition of the quality loop:
`lep_pt[j]>25000. and lep_ptcone30[j]/lep_pt[j] < 0.15 and
lep_etcone20[j]/lep_pt[j] < 0.15`. -/
def lepPre (l : Lepton) : Prop :=
  l.lep_pt > 25000 ∧ l.lep_ptcone30 / l.lep_pt < 0.15 ∧
    l.lep_etcone20 / l.lep_pt < 0.15

/-- Good-electron type/eta condition:
`lep_type[j]==11 and abs(lep_eta[j])<2.47 and
(abs(lep_eta[j])<1.37 or abs(lep_eta[j])>1.52)`. -/
def elCond (l : Lepton) : Prop :=
  l.lep_type = 11 ∧ |l.lep_eta| < 2.47 ∧ (|l.lep_eta| < 1.37 ∨ |l.lep_eta| > 1.52)

/-- Electron impact-parameter condition:
`lep_trackd0pvunbiased[j]/lep_tracksigd0pvunbiased[j] < 5 and
abs(lep_z0[j]*np.sin(theta))<0.5`. -/
def elIP (l : Lepton) : Prop :=
  l.lep_trackd0pvunbiased / l.lep_tracksigd0pvunbiased < 5 ∧
    |l.lep_z0 * Real.sin (polarTheta l.lep_eta)| < 0.5

/-- The muon eta condition exactly as written in the source:
`abs(lep_eta[j]<2.5)`.  In Python the comparison yields a bool, `abs`
maps it to the integer `1` or `0`, and the `if` tests that integer for
truthiness. -/
def muEtaCond (eta : ℝ) : Prop :=
  |(if eta < 2.5 then (1 : ℤ) else 0)| ≠ 0

/-- Good-muon type/eta condition: `lep_type[j]==13 and abs(lep_eta[j]<2.5)`. -/
def muCond (l : Lepton) : Prop :=
  l.lep_type = 13 ∧ muEtaCond l.lep_eta

/-- Muon impact-parameter condition:
`lep_trackd0pvunbiased[j]/lep_tracksigd0pvunbiased[j] < 3 and
abs(lep_z0[j]*np.sin(theta))<0.5`. -/
def muIP (l : Lepton) : Prop :=
  l.lep_trackd0pvunbiased / l.lep_tracksigd0pvunbiased < 3 ∧
    |l.lep_z0 * Real.sin (polarTheta l.lep_eta)| < 0.5

/-- A lepton that increments `goodlep` in the quality loop: it passes
the precondition and then either the electron branch or the muon branch. -/
def goodLep (l : Lepton) : Prop :=
  lepPre l ∧ ((elCond l ∧ elIP l) ∨ (muCond l ∧ muIP l))

instance (l : Lepton) : Decidable (lepPre l) := Classical.dec _
instance (l : Lepton) : Decidable (elCond l) := Classical.dec _
instance (l : Lepton) : Decidable (elIP l) := Classical.dec _
instance (eta : ℝ) : Decidable (muEtaCond eta) := Classical.dec _
instance (l : Lepton) : Decidable (muCond l) := Classical.dec _
instance (l : Lepton) : Decidable (muIP l) := Classical.dec _
instance (l : Lepton) : Decidable (goodLep l) := Classical.dec _

/-! ## The `goodlep` counting loop of the signal path

The loop state is `(goodlep, index1, index2)`; `index1` is assigned the
index of each good electron, `index2` the index of each good muon.
Nothing resets `index1`/`index2` between events: the loop starts from
whatever values they held before. -/

/-- Electron branch of the loop body: on success increment `goodlep`
and set `index1 = j`. -/
def elStep (j : ℕ) (l : Lepton) (st : ℕ × ℕ × ℕ) : ℕ × ℕ × ℕ :=
  if elCond l then (if elIP l then (st.1 + 1, j, st.2.2) else st) else st

/-- Muon branch of the loop body: on success increment `goodlep` and set
`index2 = j`.  It runs after the electron branch on the same lepton. -/
def muStep (j : ℕ) (l : Lepton) (st : ℕ × ℕ × ℕ) : ℕ × ℕ × ℕ :=
  if muCond l then (if muIP l then (st.1 + 1, st.2.1, j) else st) else st

/-- Loop body for lepton `j`: the precondition guards both branches,
which are two sequential `if`s (not `elif`). -/
def lepUpd (j : ℕ) (l : Lepton) (st : ℕ × ℕ × ℕ) : ℕ × ℕ × ℕ :=
  if lepPre l then muStep j l (elStep j l st) else st

/-- `for j in range(tree.lep_n): ...` threading `(goodlep, index1, index2)`. -/
def loopAux : ℕ → List Lepton → ℕ × ℕ × ℕ → ℕ × ℕ × ℕ
  | _, [], st => st
  | j, l :: r, st => loopAux (j + 1) r (lepUpd j l st)

/-- The whole quality loop, started with `goodlep = 0` and the incoming
(retained) values of `index1` and `index2`. -/
def goodLoop (e : Event) (i1 i2 : ℕ) : ℕ × ℕ × ℕ :=
  loopAux 0 e.leps (0, i1, i2)

/-! ## Sample attribution by cumulative row index

The notebook determines the originating sample of row `k` from the
cumulative entry counts stored while the chain was built, through a
sequence of `if` statements: the first is `if(k<=s0)`, each further one
`if(k>s_prev and k<=s_b)`.  We model the chain generically over a list
of (cumulative boundary, sample name) pairs in append order. -/

/-- Rungs after the first: each `if(prev < k and k <= b): sample = name`,
threading the previous boundary; the last matching rung wins. -/
def chainAttrAux (k : ℕ) : ℕ → Option String → List (ℕ × String) → Option String
  | _, acc, [] => acc
  | prev, acc, (b, s) :: rest =>
      chainAttrAux k b (if prev < k ∧ k ≤ b then some s else acc) rest

/-- The whole attribution chain; the first rung is `if(k<=b0)` with no
lower bound.  `none` models the case in which no rung assigned `sample`. -/
def chainAttr (k : ℕ) : List (ℕ × String) → Option String
  | [] => none
  | (b, s) :: rest => chainAttrAux k b (if k ≤ b then some s else none) rest

/-- The specified resolution: the name attached to the first boundary
that is greater than or equal to the cumulative index. -/
def specResolve (k : ℕ) (pairs : List (ℕ × String)) : Option String :=
  (pairs.find? fun p => decide (k ≤ p.1)).map fun p => p.2

/-! ## Weights -/

/-- Static per-sample metadata (the external `infofile.infos` table):
cross-section, sum of generator weights, reduction efficiency. -/
structure SampleInfo where
  xsec : ℝ
  sumw : ℝ
  red_eff : ℝ

/-- `lumi=10`, set before each loop. -/
def lumi : ℝ := 10

/-- The simulated-sample weight:
`xsec_weight = (lumi*1000*info["xsec"])/(info["sumw"]*info["red_eff"])`
followed by
`weight = xsec_weight*mcWeight*scaleFactor_PILEUP*scaleFactor_ELE*scaleFactor_MUON*scaleFactor_LepTRIGGER`. -/
def sigWeight (info : SampleInfo) (e : Event) : ℝ :=
  let xsec_weight := (lumi * 1000 * info.xsec) / (info.sumw * info.red_eff)
  xsec_weight * e.mcWeight * e.scaleFactor_PILEUP * e.scaleFactor_ELE *
    e.scaleFactor_MUON * e.scaleFactor_LepTRIGGER

/-! ## Pair ordering -/

/-- The lead/sublead assignment: `if(lep_pt[index1]>lep_pt[index2])`
takes the first lepton as leading, otherwise (ties included) the second. -/
def pickLead (a b : Lepton) : Lepton × Lepton :=
  if a.lep_pt > b.lep_pt then (a, b) else (b, a)

/-- The pair reconstruction: order by pt, build both four-vectors, sum
them, return (invariant mass, lead pt, sublead pt), each scaled by
1/1000. -/
def reconstruct (a b : Lepton) : ℝ × ℝ × ℝ :=
  let p := pickLead a b
  let leadlepton := p.1.vec
  let subleadlepton := p.2.vec
  let lepton12 := leadlepton.add subleadlepton
  (lepton12.M / 1000, leadlepton.Pt / 1000, subleadlepton.Pt / 1000)

/-! ## The three driver loops -/

/-- Mutable state of the signal loop: both counters, the four output
accumulators, and the candidate indices `index1`/`index2`, which are
declared before the loop and only ever reassigned inside the quality
loop. -/
structure SigState where
  k : ℕ
  kf : ℕ
  invM : List ℝ
  leadpt : List ℝ
  subleadpt : List ℝ
  weights : List ℝ
  index1 : ℕ
  index2 : ℕ

/-- State before the signal loop: `k=0, kf=0, index1=0, index2=0`, empty
accumulators. -/
def sigInit : SigState := ⟨0, 0, [], [], [], [], 0, 0⟩

/-- One iteration of the signal loop for one event, parametrized by the
sample-boundary pairs and the metadata table.  The cut chain is: trigger,
`lep_n==2`, quality loop with `goodlep==2`, `jet_n==0`, opposite charge
and equal type at `(index1, index2)`, invariant-mass window; on survival
the four outputs are appended and `kf` incremented. -/
def stepSig (pairs : List (ℕ × String)) (infos : String → SampleInfo)
    (s : SigState) (e : Event) : SigState :=
  let k := s.k + 1
  if e.trigE || e.trigM then
    if e.lep_n = 2 then
      let g := goodLoop e s.index1 s.index2
      if g.1 = 2 then
        if e.jet_n = 0 then
          if (e.lep g.2.1).lep_charge * (e.lep g.2.2).lep_charge < 0 ∧
              (e.lep g.2.1).lep_type = (e.lep g.2.2).lep_type then
            let p := pickLead (e.lep g.2.1) (e.lep g.2.2)
            let lepton12 := p.1.vec.add p.2.vec
            let invmass := lepton12.M / 1000
            if |invmass - 91.18| < 25 then
              let sample := (chainAttr k pairs).getD ""
              let weight := sigWeight (infos sample) e
              ⟨k, s.kf + 1, s.invM ++ [invmass], s.leadpt ++ [p.1.vec.Pt / 1000],
                s.subleadpt ++ [p.2.vec.Pt / 1000], s.weights ++ [weight], g.2.1, g.2.2⟩
            else ⟨k, s.kf, s.invM, s.leadpt, s.subleadpt, s.weights, g.2.1, g.2.2⟩
          else ⟨k, s.kf, s.invM, s.leadpt, s.subleadpt, s.weights, g.2.1, g.2.2⟩
        else ⟨k, s.kf, s.invM, s.leadpt, s.subleadpt, s.weights, g.2.1, g.2.2⟩
      else ⟨k, s.kf, s.invM, s.leadpt, s.subleadpt, s.weights, g.2.1, g.2.2⟩
    else ⟨k, s.kf, s.invM, s.leadpt, s.subleadpt, s.weights, s.index1, s.index2⟩
  else ⟨k, s.kf, s.invM, s.leadpt, s.subleadpt, s.weights, s.index1, s.index2⟩

/-- Mutable state of the background and data loops: counters and the
four output accumulators (`index1=0`, `index2=1` there are constants). -/
structure RunState where
  k : ℕ
  kf : ℕ
  invM : List ℝ
  leadpt : List ℝ
  subleadpt : List ℝ
  weights : List ℝ

/-- State before the background/data loops. -/
def runInit : RunState := ⟨0, 0, [], [], [], []⟩

/-- One iteration of the background loop: trigger and `lep_n==2` only,
then unconditional reconstruction at the fixed indices 0 and 1,
attribution over the twelve background boundaries, and the simulated
weight. -/
def stepBck (pairs : List (ℕ × String)) (infos : String → SampleInfo)
    (s : RunState) (e : Event) : RunState :=
  let k := s.k + 1
  if e.trigE || e.trigM then
    if e.lep_n = 2 then
      let p := pickLead (e.lep 0) (e.lep 1)
      let lepton12 := p.1.vec.add p.2.vec
      let invmass := lepton12.M / 1000
      let sample := (chainAttr k pairs).getD ""
      let weight := sigWeight (infos sample) e
      ⟨k, s.kf + 1, s.invM ++ [invmass], s.leadpt ++ [p.1.vec.Pt / 1000],
        s.subleadpt ++ [p.2.vec.Pt / 1000], s.weights ++ [weight]⟩
    else ⟨k, s.kf, s.invM, s.leadpt, s.subleadpt, s.weights⟩
  else ⟨k, s.kf, s.invM, s.leadpt, s.subleadpt, s.weights⟩

/-- One iteration of the data loop: as the background loop but the
appended weight is the literal `1` (`weightsd.append(1)`). -/
def stepData (s : RunState) (e : Event) : RunState :=
  let k := s.k + 1
  if e.trigE || e.trigM then
    if e.lep_n = 2 then
      let p := pickLead (e.lep 0) (e.lep 1)
      let lepton12 := p.1.vec.add p.2.vec
      let invmass := lepton12.M / 1000
      ⟨k, s.kf + 1, s.invM ++ [invmass], s.leadpt ++ [p.1.vec.Pt / 1000],
        s.subleadpt ++ [p.2.vec.Pt / 1000], s.weights ++ [1]⟩
    else ⟨k, s.kf, s.invM, s.leadpt, s.subleadpt, s.weights⟩
  else ⟨k, s.kf, s.invM, s.leadpt, s.subleadpt, s.weights⟩

/-! ## End of stream: the single flush to the sink

After its loop each section issues exactly one `extend` call with the
four accumulated columns (`roofs["signal"].extend({...})` and the
analogous calls for background and data). -/

/-- One batch written to the columnar sink. -/
structure Batch where
  mll : List ℝ
  lead : List ℝ
  sublead : List ℝ
  weight : List ℝ

/-- A full signal run: fold the loop over the stream, then flush the
accumulators as one batch; the result is the final state and the list of
batches sent to the sink. -/
def runSig (pairs : List (ℕ × String)) (infos : String → SampleInfo)
    (events : List Event) : SigState × List Batch :=
  let fin := events.foldl (stepSig pairs infos) sigInit
  (fin, [⟨fin.invM, fin.leadpt, fin.subleadpt, fin.weights⟩])

/-- A full background run. -/
def runBck (pairs : List (ℕ × String)) (infos : String → SampleInfo)
    (events : List Event) : RunState × List Batch :=
  let fin := events.foldl (stepBck pairs infos) runInit
  (fin, [⟨fin.invM, fin.leadpt, fin.subleadpt, fin.weights⟩])

/-- A full data run. -/
def runData (events : List Event) : RunState × List Batch :=
  let fin := events.foldl stepData runInit
  (fin, [⟨fin.invM, fin.leadpt, fin.subleadpt, fin.weights⟩])

/-! ## Verdict/output function of one signal iteration

`sigOut` computes, from the current row index, the incoming
`index1`/`index2` and the event alone, the verdict of the cut chain
(`none` = rejected, `some` = kept with the four output scalars) together
with the outgoing `index1`/`index2`; `applyOut` folds that result into
the loop state. -/

/-- Verdict and outputs of one signal-loop iteration as a function of
the row index `k`, the retained candidate indices and the event. -/
def sigOut (pairs : List (ℕ × String)) (infos : String → SampleInfo)
    (k i1 i2 : ℕ) (e : Event) : Option (ℝ × ℝ × ℝ × ℝ) × ℕ × ℕ :=
  if e.trigE || e.trigM then
    if e.lep_n = 2 then
      let g := goodLoop e i1 i2
      if g.1 = 2 then
        if e.jet_n = 0 then
          if (e.lep g.2.1).lep_charge * (e.lep g.2.2).lep_charge < 0 ∧
              (e.lep g.2.1).lep_type = (e.lep g.2.2).lep_type then
            let p := pickLead (e.lep g.2.1) (e.lep g.2.2)
            let lepton12 := p.1.vec.add p.2.vec
            let invmass := lepton12.M / 1000
            if |invmass - 91.18| < 25 then
              let sample := (chainAttr k pairs).getD ""
              (some (invmass, p.1.vec.Pt / 1000, p.2.vec.Pt / 1000,
                sigWeight (infos sample) e), g.2.1, g.2.2)
            else (none, g.2.1, g.2.2)
          else (none, g.2.1, g.2.2)
        else (none, g.2.1, g.2.2)
      else (none, g.2.1, g.2.2)
    else (none, i1, i2)
  else (none, i1, i2)

/-- Fold a verdict/output result into the signal-loop state. -/
def applyOut (s : SigState) (r : Option (ℝ × ℝ × ℝ × ℝ) × ℕ × ℕ) : SigState :=
  match r with
  | (none, i1, i2) => ⟨s.k + 1, s.kf, s.invM, s.leadpt, s.subleadpt, s.weights, i1, i2⟩
  | (some (m, a, b, w), i1, i2) =>
      ⟨s.k + 1, s.kf + 1, s.invM ++ [m], s.leadpt ++ [a], s.subleadpt ++ [b],
        s.weights ++ [w], i1, i2⟩

/-! ## Evaluation-order model of the isolation pre-check

Python's `and` is short-circuiting and `/` on a zero divisor raises.
`lepPreChk` runs the three conjuncts of the quality precondition in the
source's order, making each division partial: the result is `none`
exactly when some executed division has a zero divisor. -/

/-- Partial division: defined only for a nonzero divisor. -/
def pyDiv (a b : ℝ) : Option ℝ := if b = 0 then none else some (a / b)

/-- The quality precondition, evaluated in source order with
short-circuiting: `lep_pt[j]>25000.` first, then `ptcone30/pt < 0.15`,
then `etcone20/pt < 0.15`. -/
def lepPreChk (l : Lepton) : Option Bool :=
  if l.lep_pt > 25000 then
    match pyDiv l.lep_ptcone30 l.lep_pt with
    | none => none
    | some q1 =>
      if q1 < 0.15 then
        match pyDiv l.lep_etcone20 l.lep_pt with
        | none => none
        | some q2 => some (decide (q2 < 0.15))
      else some false
  else some false

/-! ## Concrete records used to exercise the definitions -/

/-- An electron record at `eta = phi = 0` with clean isolation and
impact parameters; it passes the electron quality branch whenever
`pt > 25000`. -/
def mkEl (pt E c : ℝ) : Lepton := ⟨pt, 0, 0, E, 11, c, 0, 0, 0, 1, 0⟩

/-- A muon record at `eta = phi = 0` with clean isolation and impact
parameters; it passes the muon quality branch whenever `pt > 25000`. -/
def mkMu (pt E c : ℝ) : Lepton := ⟨pt, 0, 0, E, 13, c, 0, 0, 0, 1, 0⟩

/-- A lepton with `pt = 0`: it fails the quality precondition at its
first conjunct. -/
def zeroPtLep : Lepton := ⟨0, 0, 0, 0, 11, 1, 5, 5, 0, 1, 0⟩

/-- A muon record at `eta = 3`, otherwise passing every muon cut. -/
def mu25 : Lepton := ⟨30000, 3, 0, 30000, 13, 1, 0, 0, 0, 1, 0⟩

/-- A lepton with positive pt below the 25000 threshold: it fails the
quality precondition at its first conjunct. -/
def softLep : Lepton := ⟨20000, 0, 0, 20000, 11, -1, 0, 0, 0, 1, 0⟩

/-- Event with a below-threshold lepton in slot 0 and a good muon in
slot 1: it fires the trigger but ends the quality loop with
`goodlep = 1` (and `index2 = 1` retained). -/
def eA : Event := ⟨true, false, [softLep, mkMu 30000 30000 1], 0, 1, 1, 1, 1, 1⟩

/-- The same event with both triggers off: rejected at the trigger cut,
touching neither `index1` nor `index2`. -/
def eB : Event := ⟨false, false, [softLep, mkMu 30000 30000 1], 0, 1, 1, 1, 1, 1⟩

/-- Event with two good opposite-charge electrons whose pair mass
(about 73.5 GeV units) lies inside the mass window. -/
def eC : Event := ⟨true, false, [mkEl 40000 60000 (-1), mkEl 30000 41500 1], 0, 1, 1, 1, 1, 1⟩

/-- Event with an empty lepton array (`lep_n = 0`). -/
def e0 : Event := ⟨true, false, [], 0, 1, 1, 1, 1, 1⟩

/-- A trivial metadata table. -/
def infos0 : String → SampleInfo := fun _ => ⟨1, 1, 1⟩

/-- A one-sample boundary list. -/
def pairs0 : List (ℕ × String) := [(100, "Zee")]

/-- The boundary/name pairs of the documented resolution example. -/
def pairsEx : List (ℕ × String) := [(100, "S1"), (250, "S2"), (400, "S3")]

/-! ## Kinematic helper lemmas -/

lemma vec_Pt (l : Lepton) : l.vec.Pt = |l.lep_pt| := by
  simp only [Lepton.vec, setPtEtaPhiE, FourVec.Pt]
  rw [mul_pow, mul_pow, ← mul_add, add_comm ((Real.cos l.lep_phi) ^ 2),
    Real.sin_sq_add_cos_sq, mul_one, Real.sqrt_sq_eq_abs]

lemma vec_mkEl (pt E c : ℝ) : (mkEl pt E c).vec = ⟨pt, 0, 0, E⟩ := by
  simp [mkEl, Lepton.vec, setPtEtaPhiE]

lemma vec_mkMu (pt E c : ℝ) : (mkMu pt E c).vec = ⟨pt, 0, 0, E⟩ := by
  simp [mkMu, Lepton.vec, setPtEtaPhiE]

/-! ## Evaluation of the quality loop on the concrete records -/

lemma lepPre_mkEl (pt E c : ℝ) (h : pt > 25000) : lepPre (mkEl pt E c) := by
  refine ⟨h, ?_, ?_⟩ <;> norm_num [mkEl]

lemma lepPre_mkMu (pt E c : ℝ) (h : pt > 25000) : lepPre (mkMu pt E c) := by
  refine ⟨h, ?_, ?_⟩ <;> norm_num [mkMu]

lemma lepUpd_mkEl (j : ℕ) (st : ℕ × ℕ × ℕ) (pt E c : ℝ) (h : pt > 25000) :
    lepUpd j (mkEl pt E c) st = (st.1 + 1, j, st.2.2) := by
  have hel : elCond (mkEl pt E c) := by norm_num [elCond, mkEl]
  have heip : elIP (mkEl pt E c) := by norm_num [elIP, mkEl]
  have hmu : ¬ muCond (mkEl pt E c) := by norm_num [muCond, mkEl]
  simp only [lepUpd, elStep, muStep]
  rw [if_pos (lepPre_mkEl pt E c h), if_neg hmu, if_pos hel, if_pos heip]

lemma lepUpd_mkMu (j : ℕ) (st : ℕ × ℕ × ℕ) (pt E c : ℝ) (h : pt > 25000) :
    lepUpd j (mkMu pt E c) st = (st.1 + 1, st.2.1, j) := by
  have hel : ¬ elCond (mkMu pt E c) := by norm_num [elCond, mkMu]
  have hmu : muCond (mkMu pt E c) := by norm_num [muCond, muEtaCond, mkMu]
  have hmip : muIP (mkMu pt E c) := by norm_num [muIP, mkMu]
  simp only [lepUpd, elStep, muStep]
  rw [if_pos (lepPre_mkMu pt E c h), if_neg hel, if_pos hmu, if_pos hmip]

lemma lepUpd_soft (j : ℕ) (st : ℕ × ℕ × ℕ) : lepUpd j softLep st = st := by
  have hpre : ¬ lepPre softLep := by norm_num [lepPre, softLep]
  simp only [lepUpd]
  rw [if_neg hpre]

lemma goodLoop_eA (i1 i2 : ℕ) : goodLoop eA i1 i2 = (1, i1, 1) := by
  simp only [goodLoop, eA, loopAux]
  rw [lepUpd_soft, lepUpd_mkMu 1 (0, i1, i2) 30000 30000 1 (by norm_num)]

lemma goodLoop_eC (i1 i2 : ℕ) : goodLoop eC i1 i2 = (2, 1, i2) := by
  simp only [goodLoop, eC, loopAux]
  rw [lepUpd_mkEl 0 (0, i1, i2) 40000 60000 (-1) (by norm_num),
    lepUpd_mkEl 1 (0 + 1, 0, i2) 30000 41500 1 (by norm_num)]

/-! ## Evaluation of whole signal iterations on the concrete events -/

lemma lep_eC_0 : eC.lep 0 = mkEl 40000 60000 (-1) := by
  simp [Event.lep, eC]

lemma lep_eC_1 : eC.lep 1 = mkEl 30000 41500 1 := by
  simp [Event.lep, eC]

lemma M_sum_eC : (FourVec.add ⟨40000, 0, 0, 60000⟩ ⟨30000, 0, 0, 41500⟩).M = 73500 := by
  have h2 : (FourVec.add ⟨40000, 0, 0, 60000⟩ ⟨30000, 0, 0, 41500⟩).M2 = 5402250000 := by
    norm_num [FourVec.add, FourVec.M2]
  rw [FourVec.M, h2, if_neg (by norm_num),
    show (5402250000 : ℝ) = 73500 ^ 2 by norm_num, Real.sqrt_sq (by norm_num)]

lemma stepSig_eA : stepSig pairs0 infos0 sigInit eA = ⟨1, 0, [], [], [], [], 0, 1⟩ := by
  have h1 : (eA.trigE || eA.trigM) = true := by simp [eA]
  have h2 : eA.lep_n = 2 := by simp [Event.lep_n, eA]
  have hg : goodLoop eA 0 0 = (1, 0, 1) := goodLoop_eA 0 0
  simp only [stepSig, sigInit, h1, h2, hg]
  norm_num

lemma stepSig_eB : stepSig pairs0 infos0 sigInit eB = ⟨1, 0, [], [], [], [], 0, 0⟩ := by
  have h1 : (eB.trigE || eB.trigM) = false := by simp [eB]
  simp only [stepSig, sigInit, h1]
  norm_num

lemma stepSig_eC_stale : (stepSig pairs0 infos0 ⟨1, 0, [], [], [], [], 0, 1⟩ eC).kf = 0 := by
  have h1 : (eC.trigE || eC.trigM) = true := by simp [eC]
  have h2 : eC.lep_n = 2 := by simp [Event.lep_n, eC]
  have hg : goodLoop eC 0 1 = (2, 1, 1) := goodLoop_eC 0 1
  have hjet : eC.jet_n = 0 := by simp [eC]
  have hch : ¬ ((eC.lep 1).lep_charge * (eC.lep 1).lep_charge < 0) := by
    rw [lep_eC_1]; norm_num [mkEl]
  simp only [stepSig, h1, h2, hg]
  simp [hjet, hch]

lemma stepSig_eC_fresh : (stepSig pairs0 infos0 ⟨1, 0, [], [], [], [], 0, 0⟩ eC).kf = 1 := by
  have h1 : (eC.trigE || eC.trigM) = true := by simp [eC]
  have h2 : eC.lep_n = 2 := by simp [Event.lep_n, eC]
  have hjet : eC.jet_n = 0 := by simp [eC]
  have hg : goodLoop eC 0 0 = (2, 1, 0) := goodLoop_eC 0 0
  have hct : (eC.lep 1).lep_charge * (eC.lep 0).lep_charge < 0 ∧
      (eC.lep 1).lep_type = (eC.lep 0).lep_type := by
    rw [lep_eC_0, lep_eC_1]; norm_num [mkEl]
  have hpick : pickLead (eC.lep 1) (eC.lep 0) = (eC.lep 0, eC.lep 1) := by
    rw [lep_eC_0, lep_eC_1, pickLead, if_neg]; norm_num [mkEl]
  have hmass : |(FourVec.add (eC.lep 0).vec (eC.lep 1).vec).M / 1000 - 91.18| < 25 := by
    rw [lep_eC_0, lep_eC_1, vec_mkEl, vec_mkEl, M_sum_eC, abs_lt]
    constructor <;> norm_num
  simp only [stepSig, h1, h2, hg]
  simp [hct, hpick, hmass, hjet]

/-! ## Claim C1 -/

/-- Claim C1, counterexample.  Two first events (`eA`: trigger fires but
only one good lepton; `eB`: trigger off) leave identical row counter,
kept counter and output accumulators, yet the verdict for the same
second event `eC` differs: after `eA` the retained `index2 = 1` makes
the charge product positive and `eC` is rejected, while after `eB` the
retained `index2 = 0` lets `eC` be kept.  So the verdict does not depend
only on the event's fields and the counters/accumulators. -/
theorem claim1_cex :
    ((stepSig pairs0 infos0 sigInit eA).k = (stepSig pairs0 infos0 sigInit eB).k ∧
      (stepSig pairs0 infos0 sigInit eA).kf = (stepSig pairs0 infos0 sigInit eB).kf ∧
      (stepSig pairs0 infos0 sigInit eA).invM = (stepSig pairs0 infos0 sigInit eB).invM ∧
      (stepSig pairs0 infos0 sigInit eA).leadpt = (stepSig pairs0 infos0 sigInit eB).leadpt ∧
      (stepSig pairs0 infos0 sigInit eA).subleadpt = (stepSig pairs0 infos0 sigInit eB).subleadpt ∧
      (stepSig pairs0 infos0 sigInit eA).weights = (stepSig pairs0 infos0 sigInit eB).weights) ∧
    (stepSig pairs0 infos0 (stepSig pairs0 infos0 sigInit eA) eC).kf ≠
      (stepSig pairs0 infos0 (stepSig pairs0 infos0 sigInit eB) eC).kf := by
  rw [stepSig_eA, stepSig_eB]
  refine ⟨⟨rfl, rfl, rfl, rfl, rfl, rfl⟩, ?_⟩
  rw [stepSig_eC_stale, stepSig_eC_fresh]
  decide

/-- Claim C1 (amended): on the signal path the candidate lepton indices
`index1`/`index2` also persist across iteration boundaries, and the
verdict and outputs of an iteration are a function of exactly the
event's fields, the incremented row counter and the retained
`index1`/`index2` — independent of `kf` and of the accumulator
contents: every iteration factors through `sigOut`. -/
theorem claim1_thm (pairs : List (ℕ × String)) (infos : String → SampleInfo)
    (s : SigState) (e : Event) :
    stepSig pairs infos s e = applyOut s (sigOut pairs infos (s.k + 1) s.index1 s.index2 e) := by
  simp only [stepSig, sigOut]
  split_ifs <;> rfl

/-! ## Claim C2 -/

/-- Claim C2, counterexample: the muon eta condition `abs(lep_eta[j]<2.5)`
is not always true.  The muon record `mu25` (type 13, `eta = 3`) passes
the isolation precondition and the muon impact-parameter cut, yet the
eta condition evaluates to false (`abs(False) = 0` is falsy) and the
lepton fails the good-lepton predicate because of it alone. -/
theorem claim2_cex :
    mu25.lep_type = 13 ∧ ¬ muEtaCond mu25.lep_eta ∧ lepPre mu25 ∧ muIP mu25 ∧
      ¬ goodLep mu25 := by
  have hEta : ¬ muEtaCond mu25.lep_eta := by norm_num [muEtaCond, mu25]
  refine ⟨rfl, hEta, ?_, ?_, ?_⟩
  · norm_num [lepPre, mu25]
  · norm_num [muIP, mu25]
  · rintro ⟨-, ⟨hel, -⟩ | ⟨hmu, -⟩⟩
    · exact absurd hel.1 (by norm_num [mu25])
    · exact hEta hmu.2

/-- Claim C2 (amended): because Python's `abs` maps the boolean
comparison result to 0 or 1, the muon eta condition is equivalent to the
one-sided test `eta < 2.5` — true for every muon with `eta < 2.5`
(including arbitrarily negative eta, where the presumably intended
`abs(eta) < 2.5` would fail) and false, failing the lepton by itself,
exactly when `eta ≥ 2.5`. -/
theorem claim2_thm : (∀ eta : ℝ, muEtaCond eta ↔ eta < 2.5) ∧
    (∀ l : Lepton, muCond l ↔ (l.lep_type = 13 ∧ l.lep_eta < 2.5)) := by
  constructor
  · intro eta
    by_cases h : eta < 2.5 <;> simp [muEtaCond, h]
  · intro l
    unfold muCond
    by_cases h : l.lep_eta < 2.5 <;> simp [muEtaCond, h]

/-! ## Claim C3 -/

lemma lepPreChk_isSome (l : Lepton) : (lepPreChk l).isSome := by
  by_cases h : l.lep_pt > 25000
  · have hne : ¬ (l.lep_pt = 0) := by intro h0; rw [h0] at h; norm_num at h
    simp only [lepPreChk, pyDiv, if_pos h, if_neg hne]
    split_ifs <;> simp
  · simp [lepPreChk, h]

/-- The evaluation of the isolation precondition is defined (does not
hit a division with zero divisor) on every lepton record. -/
def isoDivTotal : Prop := ∀ l : Lepton, (lepPreChk l).isSome

/-- Claim C3, counterexample (proof of the claim's negation): for every
lepton of every event, evaluating the quality precondition in the
source's short-circuit order never executes a division with a zero
divisor — the `lep_pt[j]>25000.` conjunct fails first for `pt = 0`, so
no event makes the selector divide by zero. -/
theorem claim3_cex : isoDivTotal := fun l => lepPreChk_isSome l

/-- Claim C3 (amended): the isolation-fraction divisions are de facto
guarded: the evaluation of the precondition is always defined (no
executed division has a zero divisor), a lepton with `pt = 0` simply
evaluates to false at the threshold conjunct, and the evaluation agrees
with the precondition predicate. -/
theorem claim3_thm : ∀ l : Lepton, (lepPreChk l).isSome ∧
    (l.lep_pt = 0 → lepPreChk l = some false) ∧
    (lepPreChk l = some true ↔ lepPre l) := by
  intro l
  refine ⟨lepPreChk_isSome l, ?_, ?_⟩
  · intro h0
    have h : ¬ (l.lep_pt > 25000) := by rw [h0]; norm_num
    simp [lepPreChk, h]
  · by_cases h : l.lep_pt > 25000
    · have hne : ¬ (l.lep_pt = 0) := by intro h0; rw [h0] at h; norm_num at h
      simp only [lepPreChk, pyDiv, if_pos h, if_neg hne]
      by_cases h1 : l.lep_ptcone30 / l.lep_pt < 0.15
      · simp [h1, lepPre, h, decide_eq_true_eq]
      · simp [h1, lepPre, h]
    · simp [lepPreChk, h, lepPre]

/-- Claim C3, witness: a concrete lepton with `pt = 0` evaluates to
`some false` — the precondition fails without executing any division. -/
theorem claim3_witness : lepPreChk zeroPtLep = some false :=
  (claim3_thm zeroPtLep).2.1 rfl

/-! ## Claim C4 -/

lemma chainAttrAux_ge (pairs : List (ℕ × String)) :
    ∀ (prev : ℕ) (acc : Option String) (k : ℕ), k ≤ prev →
      List.Chain' (· < ·) (prev :: pairs.map Prod.fst) →
      chainAttrAux k prev acc pairs = acc := by
  induction pairs with
  | nil => intro prev acc k _ _; rfl
  | cons p rest ih =>
      intro prev acc k hk hc
      obtain ⟨b, s⟩ := p
      rw [List.map_cons, List.chain'_cons] at hc
      simp only [chainAttrAux]
      rw [if_neg (by rintro ⟨h1, -⟩; omega),
        ih b acc k (le_of_lt (lt_of_le_of_lt hk hc.1)) hc.2]

lemma chainAttrAux_lt (pairs : List (ℕ × String)) :
    ∀ (prev : ℕ) (acc : Option String) (k : ℕ), prev < k →
      List.Chain' (· < ·) (prev :: pairs.map Prod.fst) →
      chainAttrAux k prev acc pairs = (specResolve k pairs).or acc := by
  induction pairs with
  | nil => intro prev acc k _ _; simp [chainAttrAux, specResolve]
  | cons p rest ih =>
      intro prev acc k hk hc
      obtain ⟨b, s⟩ := p
      rw [List.map_cons, List.chain'_cons] at hc
      simp only [chainAttrAux]
      by_cases hb : k ≤ b
      · rw [if_pos ⟨hk, hb⟩, chainAttrAux_ge rest b (some s) k hb hc.2]
        simp [specResolve, List.find?, hb]
      · rw [if_neg (by rintro ⟨-, h2⟩; exact hb h2),
          ih b acc k (by omega) hc.2]
        simp [specResolve, List.find?, hb]

lemma chainAttr_eq_specResolve (pairs : List (ℕ × String)) (k : ℕ)
    (hinc : List.Chain' (· < ·) (pairs.map Prod.fst)) :
    chainAttr k pairs = specResolve k pairs := by
  cases pairs with
  | nil => rfl
  | cons p rest =>
      obtain ⟨b, s⟩ := p
      rw [List.map_cons] at hinc
      simp only [chainAttr]
      by_cases hb : k ≤ b
      · rw [if_pos hb, chainAttrAux_ge rest b (some s) k hb hinc]
        simp [specResolve, List.find?, hb]
      · rw [if_neg hb, chainAttrAux_lt rest b none k (by omega) hinc]
        simp [specResolve, List.find?, hb]

/-- Claim C4: for strictly increasing cumulative boundaries and a
1-based cumulative index up to the last boundary, the source's
attribution chain of sequential `if`s resolves the index to the name
attached to the first boundary that is greater than or equal to it
(inclusive upper edges); in particular, on boundaries
`[100, 250, 400]` with names `[S1, S2, S3]` the chain gives
`100 ↦ S1`, `101 ↦ S2`, `250 ↦ S2`, `251 ↦ S3`, `400 ↦ S3`. -/
theorem claim4_thm :
    (∀ (pairs : List (ℕ × String)) (k : ℕ),
      List.Chain' (· < ·) (pairs.map Prod.fst) → 1 ≤ k →
      k ≤ (pairs.map Prod.fst).foldr max 0 →
      chainAttr k pairs = specResolve k pairs) ∧
    chainAttr 100 pairsEx = some "S1" ∧ chainAttr 101 pairsEx = some "S2" ∧
    chainAttr 250 pairsEx = some "S2" ∧ chainAttr 251 pairsEx = some "S3" ∧
    chainAttr 400 pairsEx = some "S3" := by
  refine ⟨fun pairs k hinc _ _ => chainAttr_eq_specResolve pairs k hinc, ?_, ?_, ?_, ?_, ?_⟩
  all_goals decide

/-- Claim C4, witness: the general chain/resolution agreement applied to
the example boundaries at index 150. -/
theorem claim4_witness : chainAttr 150 pairsEx = specResolve 150 pairsEx :=
  claim4_thm.1 pairsEx 150
    (by norm_num [pairsEx, List.chain'_cons, List.chain'_singleton])
    (by decide) (by decide)

/-! ## Claim C5 -/

/-- Claim C5: the weight computation is fully characterized.  On the
simulated paths the appended weight equals
`(lumi*1000*xsec)/(sumw*red_eff)` times the product of the event's
Monte-Carlo weight and the pileup, electron, muon and lepton-trigger
scale factors, with `lumi = 10`; on the real-data path every kept event
appends the constant weight `1`, regardless of any other input. -/
theorem claim5_thm :
    (∀ (info : SampleInfo) (e : Event),
      sigWeight info e = (10 * 1000 * info.xsec) / (info.sumw * info.red_eff) *
        (e.mcWeight * e.scaleFactor_PILEUP * e.scaleFactor_ELE * e.scaleFactor_MUON *
          e.scaleFactor_LepTRIGGER)) ∧
    (∀ (s : RunState) (e : Event), (e.trigE || e.trigM) = true → e.lep_n = 2 →
      (stepData s e).weights = s.weights ++ [1]) := by
  constructor
  · intro info e
    simp only [sigWeight, lumi]
    ring
  · intro s e ht hn
    simp only [stepData, ht, hn]
    simp

/-- Claim C5, witness: applied to a concrete state and event on the data
path. -/
theorem claim5_witness : (stepData runInit eC).weights = runInit.weights ++ [1] :=
  claim5_thm.2 runInit eC (by simp [eC]) (by simp [Event.lep_n, eC])

/-! ## Claim C6 -/

/-- Claim C6: an event whose lepton count field differs from 2 is
rejected on all three paths with no entry appended to any output
accumulator (only the row counter advances; on the signal path the
retained indices are untouched as well), and the signal verdict is
`none` without reaching the reconstruction. -/
theorem claim6_thm (pairs : List (ℕ × String)) (infos : String → SampleInfo)
    (s : SigState) (sb sd : RunState) (e : Event) (h : e.lep_n ≠ 2) :
    stepSig pairs infos s e =
      ⟨s.k + 1, s.kf, s.invM, s.leadpt, s.subleadpt, s.weights, s.index1, s.index2⟩ ∧
    stepBck pairs infos sb e = ⟨sb.k + 1, sb.kf, sb.invM, sb.leadpt, sb.subleadpt, sb.weights⟩ ∧
    stepData sd e = ⟨sd.k + 1, sd.kf, sd.invM, sd.leadpt, sd.subleadpt, sd.weights⟩ ∧
    (∀ k i1 i2 : ℕ, (sigOut pairs infos k i1 i2 e).1 = none) := by
  refine ⟨?_, ?_, ?_, fun k i1 i2 => ?_⟩
  · simp only [stepSig]
    split_ifs <;> rfl
  · simp only [stepBck]
    split_ifs <;> rfl
  · simp only [stepData]
    split_ifs <;> rfl
  · simp only [sigOut]
    split_ifs <;> rfl

/-- Claim C6, witness: a concrete event with zero leptons leaves every
accumulator and counter except the row counter unchanged on all three
paths. -/
theorem claim6_witness :
    stepSig pairs0 infos0 sigInit e0 = ⟨1, 0, [], [], [], [], 0, 0⟩ ∧
    stepBck pairs0 infos0 runInit e0 = ⟨1, 0, [], [], [], []⟩ ∧
    stepData runInit e0 = ⟨1, 0, [], [], [], []⟩ := by
  have h := claim6_thm pairs0 infos0 sigInit runInit runInit e0 (by decide)
  exact ⟨h.1, h.2.1, h.2.2.1⟩

/-! ## Claim C7 -/

/-- Claim C7: the pair reconstruction is symmetric under swapping its
two inputs — the returned (mass, lead pt, sublead pt) triple is the same
in both orders — and when one lepton has strictly larger pt it occupies
the leading slot in both orders. -/
theorem claim7_thm (a b : Lepton) :
    reconstruct a b = reconstruct b a ∧
    (a.lep_pt > b.lep_pt → pickLead a b = (a, b) ∧ pickLead b a = (a, b)) := by
  constructor
  · rcases lt_trichotomy a.lep_pt b.lep_pt with h | h | h
    · simp only [reconstruct, pickLead]
      rw [if_neg (not_lt.2 (le_of_lt h)), if_pos h]
    · simp only [reconstruct, pickLead]
      rw [if_neg (not_lt.2 (le_of_eq h)), if_neg (not_lt.2 (le_of_eq h.symm))]
      rw [show FourVec.add b.vec a.vec = FourVec.add a.vec b.vec by
        simp [FourVec.add]; constructor <;> [skip; constructor <;> [skip; constructor]] <;> ring]
      rw [vec_Pt, vec_Pt, h]
    · simp only [reconstruct, pickLead]
      rw [if_pos h, if_neg (not_lt.2 (le_of_lt h))]
  · intro h
    constructor
    · simp only [pickLead]
      rw [if_pos h]
    · simp only [pickLead]
      rw [if_neg (not_lt.2 (le_of_lt h))]

/-- Claim C7, witness: the symmetry and the lead-slot assignment at two
concrete lepton records with distinct pt. -/
theorem claim7_witness :
    reconstruct (mkEl 40000 60000 (-1)) (mkEl 30000 41500 1) =
      reconstruct (mkEl 30000 41500 1) (mkEl 40000 60000 (-1)) ∧
    pickLead (mkEl 40000 60000 (-1)) (mkEl 30000 41500 1) =
      (mkEl 40000 60000 (-1), mkEl 30000 41500 1) := by
  have h := claim7_thm (mkEl 40000 60000 (-1)) (mkEl 30000 41500 1)
  exact ⟨h.1, (h.2 (by norm_num [mkEl])).1⟩

/-! ## Claim C8 -/

lemma pickLead_pt_le (a b : Lepton) :
    (pickLead a b).2.lep_pt ≤ (pickLead a b).1.lep_pt := by
  unfold pickLead
  split_ifs with h
  · exact le_of_lt h
  · exact not_lt.1 h

lemma pickLead_Pt_le (a b : Lepton) (ha : 0 ≤ a.lep_pt) (hb : 0 ≤ b.lep_pt) :
    (pickLead a b).2.vec.Pt / 1000 ≤ (pickLead a b).1.vec.Pt / 1000 := by
  unfold pickLead
  split_ifs with h
  · show b.vec.Pt / 1000 ≤ a.vec.Pt / 1000
    rw [vec_Pt, vec_Pt, abs_of_nonneg ha, abs_of_nonneg hb]
    linarith
  · show a.vec.Pt / 1000 ≤ b.vec.Pt / 1000
    rw [vec_Pt, vec_Pt, abs_of_nonneg ha, abs_of_nonneg hb]
    have := not_lt.1 h
    linarith

/-- Claim C8: the descending-pt ordering always places the larger raw pt
in the leading slot (ties go to the second lepton, which then has equal
pt); consequently, for nonnegative lepton pt, the appended
(lead, sublead) output pair of every kept event satisfies
lead ≥ sublead, on the background and data paths at the fixed slots
0/1 and on the signal path at the verdict's candidate indices. -/
theorem claim8_thm :
    (∀ a b : Lepton, (pickLead a b).2.lep_pt ≤ (pickLead a b).1.lep_pt) ∧
    (∀ a b : Lepton, 0 ≤ a.lep_pt → 0 ≤ b.lep_pt →
      (pickLead a b).2.vec.Pt / 1000 ≤ (pickLead a b).1.vec.Pt / 1000) ∧
    (∀ (pairs : List (ℕ × String)) (infos : String → SampleInfo) (s : RunState) (e : Event),
      (e.trigE || e.trigM) = true → e.lep_n = 2 →
      0 ≤ (e.lep 0).lep_pt → 0 ≤ (e.lep 1).lep_pt →
      ∃ x y, (stepBck pairs infos s e).leadpt = s.leadpt ++ [x] ∧
        (stepBck pairs infos s e).subleadpt = s.subleadpt ++ [y] ∧ y ≤ x) ∧
    (∀ (s : RunState) (e : Event),
      (e.trigE || e.trigM) = true → e.lep_n = 2 →
      0 ≤ (e.lep 0).lep_pt → 0 ≤ (e.lep 1).lep_pt →
      ∃ x y, (stepData s e).leadpt = s.leadpt ++ [x] ∧
        (stepData s e).subleadpt = s.subleadpt ++ [y] ∧ y ≤ x) ∧
    (∀ (pairs : List (ℕ × String)) (infos : String → SampleInfo) (k i1 i2 : ℕ)
      (e : Event) (m x y w : ℝ) (j1 j2 : ℕ),
      sigOut pairs infos k i1 i2 e = (some (m, x, y, w), j1, j2) →
      0 ≤ (e.lep (goodLoop e i1 i2).2.1).lep_pt →
      0 ≤ (e.lep (goodLoop e i1 i2).2.2).lep_pt → y ≤ x) := by
  refine ⟨pickLead_pt_le, pickLead_Pt_le, ?_, ?_, ?_⟩
  · intro pairs infos s e ht hn ha hb
    refine ⟨_, _, ?_, ?_, pickLead_Pt_le (e.lep 0) (e.lep 1) ha hb⟩ <;>
      simp [stepBck, ht, hn]
  · intro s e ht hn ha hb
    refine ⟨_, _, ?_, ?_, pickLead_Pt_le (e.lep 0) (e.lep 1) ha hb⟩ <;>
      simp [stepData, ht, hn]
  · intro pairs infos k i1 i2 e m x y w j1 j2 hout ha hb
    simp only [sigOut] at hout
    split_ifs at hout <;>
      simp only [Prod.mk.injEq, Option.some.injEq, reduceCtorEq, false_and] at hout
    obtain ⟨⟨-, hx, hy, -⟩, -, -⟩ := hout
    rw [← hx, ← hy]
    exact pickLead_Pt_le _ _ ha hb

/-- Claim C8, witness: the ordering invariant and the output ordering at
two concrete leptons, and on a concrete kept data event. -/
theorem claim8_witness :
    (pickLead (mkEl 40000 60000 (-1)) (mkEl 30000 41500 1)).2.lep_pt ≤
      (pickLead (mkEl 40000 60000 (-1)) (mkEl 30000 41500 1)).1.lep_pt ∧
    (∃ x y, (stepData runInit eC).leadpt = runInit.leadpt ++ [x] ∧
      (stepData runInit eC).subleadpt = runInit.subleadpt ++ [y] ∧ y ≤ x) := by
  refine ⟨claim8_thm.1 _ _, claim8_thm.2.2.2.1 runInit eC (by simp [eC])
    (by simp [Event.lep_n, eC]) ?_ ?_⟩
  · rw [lep_eC_0]; norm_num [mkEl]
  · rw [lep_eC_1]; norm_num [mkEl]

/-! ## Claim C9 -/

/-- The four accumulators have equal lengths, all equal to the
kept-event counter (signal loop state). -/
def SigState.lensOk (s : SigState) : Prop :=
  s.invM.length = s.kf ∧ s.leadpt.length = s.kf ∧
    s.subleadpt.length = s.kf ∧ s.weights.length = s.kf

/-- The four accumulators have equal lengths, all equal to the
kept-event counter (background/data loop state). -/
def RunState.lensOk (s : RunState) : Prop :=
  s.invM.length = s.kf ∧ s.leadpt.length = s.kf ∧
    s.subleadpt.length = s.kf ∧ s.weights.length = s.kf

lemma stepSig_dichotomy (pairs : List (ℕ × String)) (infos : String → SampleInfo)
    (s : SigState) (e : Event) :
    ((stepSig pairs infos s e).kf = s.kf ∧ (stepSig pairs infos s e).invM = s.invM ∧
      (stepSig pairs infos s e).leadpt = s.leadpt ∧
      (stepSig pairs infos s e).subleadpt = s.subleadpt ∧
      (stepSig pairs infos s e).weights = s.weights) ∨
    (∃ m x y w, (stepSig pairs infos s e).kf = s.kf + 1 ∧
      (stepSig pairs infos s e).invM = s.invM ++ [m] ∧
      (stepSig pairs infos s e).leadpt = s.leadpt ++ [x] ∧
      (stepSig pairs infos s e).subleadpt = s.subleadpt ++ [y] ∧
      (stepSig pairs infos s e).weights = s.weights ++ [w]) := by
  simp only [stepSig]
  split_ifs <;>
    first
      | (left; exact ⟨rfl, rfl, rfl, rfl, rfl⟩)
      | (right; exact ⟨_, _, _, _, rfl, rfl, rfl, rfl, rfl⟩)

lemma stepBck_dichotomy (pairs : List (ℕ × String)) (infos : String → SampleInfo)
    (s : RunState) (e : Event) :
    ((stepBck pairs infos s e).kf = s.kf ∧ (stepBck pairs infos s e).invM = s.invM ∧
      (stepBck pairs infos s e).leadpt = s.leadpt ∧
      (stepBck pairs infos s e).subleadpt = s.subleadpt ∧
      (stepBck pairs infos s e).weights = s.weights) ∨
    (∃ m x y w, (stepBck pairs infos s e).kf = s.kf + 1 ∧
      (stepBck pairs infos s e).invM = s.invM ++ [m] ∧
      (stepBck pairs infos s e).leadpt = s.leadpt ++ [x] ∧
      (stepBck pairs infos s e).subleadpt = s.subleadpt ++ [y] ∧
      (stepBck pairs infos s e).weights = s.weights ++ [w]) := by
  simp only [stepBck]
  split_ifs <;>
    first
      | (left; exact ⟨rfl, rfl, rfl, rfl, rfl⟩)
      | (right; exact ⟨_, _, _, _, rfl, rfl, rfl, rfl, rfl⟩)

lemma stepData_dichotomy (s : RunState) (e : Event) :
    ((stepData s e).kf = s.kf ∧ (stepData s e).invM = s.invM ∧
      (stepData s e).leadpt = s.leadpt ∧ (stepData s e).subleadpt = s.subleadpt ∧
      (stepData s e).weights = s.weights) ∨
    (∃ m x y w, (stepData s e).kf = s.kf + 1 ∧
      (stepData s e).invM = s.invM ++ [m] ∧
      (stepData s e).leadpt = s.leadpt ++ [x] ∧
      (stepData s e).subleadpt = s.subleadpt ++ [y] ∧
      (stepData s e).weights = s.weights ++ [w]) := by
  simp only [stepData]
  split_ifs <;>
    first
      | (left; exact ⟨rfl, rfl, rfl, rfl, rfl⟩)
      | (right; exact ⟨_, _, _, _, rfl, rfl, rfl, rfl, rfl⟩)

lemma lensOk_stepSig (pairs : List (ℕ × String)) (infos : String → SampleInfo)
    (s : SigState) (e : Event) (h : s.lensOk) : (stepSig pairs infos s e).lensOk := by
  rcases stepSig_dichotomy pairs infos s e with
    ⟨h1, h2, h3, h4, h5⟩ | ⟨m, x, y, w, h1, h2, h3, h4, h5⟩ <;>
    exact ⟨by rw [h1, h2]; simp [h.1], by rw [h1, h3]; simp [h.2.1],
      by rw [h1, h4]; simp [h.2.2.1], by rw [h1, h5]; simp [h.2.2.2]⟩

lemma lensOk_stepBck (pairs : List (ℕ × String)) (infos : String → SampleInfo)
    (s : RunState) (e : Event) (h : s.lensOk) : (stepBck pairs infos s e).lensOk := by
  rcases stepBck_dichotomy pairs infos s e with
    ⟨h1, h2, h3, h4, h5⟩ | ⟨m, x, y, w, h1, h2, h3, h4, h5⟩ <;>
    exact ⟨by rw [h1, h2]; simp [h.1], by rw [h1, h3]; simp [h.2.1],
      by rw [h1, h4]; simp [h.2.2.1], by rw [h1, h5]; simp [h.2.2.2]⟩

lemma lensOk_stepData (s : RunState) (e : Event) (h : s.lensOk) :
    (stepData s e).lensOk := by
  rcases stepData_dichotomy s e with
    ⟨h1, h2, h3, h4, h5⟩ | ⟨m, x, y, w, h1, h2, h3, h4, h5⟩ <;>
    exact ⟨by rw [h1, h2]; simp [h.1], by rw [h1, h3]; simp [h.2.1],
      by rw [h1, h4]; simp [h.2.2.1], by rw [h1, h5]; simp [h.2.2.2]⟩

lemma lensOk_foldSig (pairs : List (ℕ × String)) (infos : String → SampleInfo) :
    ∀ (events : List Event) (s : SigState), s.lensOk →
      (events.foldl (stepSig pairs infos) s).lensOk := by
  intro events
  induction events with
  | nil => exact fun s h => h
  | cons e r ih => exact fun s h => ih _ (lensOk_stepSig pairs infos s e h)

lemma lensOk_foldBck (pairs : List (ℕ × String)) (infos : String → SampleInfo) :
    ∀ (events : List Event) (s : RunState), s.lensOk →
      (events.foldl (stepBck pairs infos) s).lensOk := by
  intro events
  induction events with
  | nil => exact fun s h => h
  | cons e r ih => exact fun s h => ih _ (lensOk_stepBck pairs infos s e h)

lemma lensOk_foldData : ∀ (events : List Event) (s : RunState), s.lensOk →
    (events.foldl stepData s).lensOk := by
  intro events
  induction events with
  | nil => exact fun s h => h
  | cons e r ih => exact fun s h => ih _ (lensOk_stepData s e h)

/-- Claim C9: on every path, after any prefix of the stream the four
output accumulators have equal length and that length is the kept-event
counter `kf`; each iteration either leaves `kf` and all four
accumulators unchanged or increments `kf` and appends exactly one entry
to each of the four; and a full run flushes exactly one batch to the
sink, consisting of the final accumulators, whose four columns all have
length equal to the final kept count. -/
theorem claim9_thm :
    (∀ (pairs : List (ℕ × String)) (infos : String → SampleInfo) (events : List Event),
      (events.foldl (stepSig pairs infos) sigInit).lensOk) ∧
    (∀ (pairs : List (ℕ × String)) (infos : String → SampleInfo) (events : List Event),
      (events.foldl (stepBck pairs infos) runInit).lensOk) ∧
    (∀ events : List Event, (events.foldl stepData runInit).lensOk) ∧
    (∀ (pairs : List (ℕ × String)) (infos : String → SampleInfo) (s : SigState) (e : Event),
      ((stepSig pairs infos s e).kf = s.kf ∧ (stepSig pairs infos s e).invM = s.invM ∧
        (stepSig pairs infos s e).leadpt = s.leadpt ∧
        (stepSig pairs infos s e).subleadpt = s.subleadpt ∧
        (stepSig pairs infos s e).weights = s.weights) ∨
      (∃ m x y w, (stepSig pairs infos s e).kf = s.kf + 1 ∧
        (stepSig pairs infos s e).invM = s.invM ++ [m] ∧
        (stepSig pairs infos s e).leadpt = s.leadpt ++ [x] ∧
        (stepSig pairs infos s e).subleadpt = s.subleadpt ++ [y] ∧
        (stepSig pairs infos s e).weights = s.weights ++ [w])) ∧
    (∀ (pairs : List (ℕ × String)) (infos : String → SampleInfo) (events : List Event),
      (runSig pairs infos events).2 =
        [⟨(runSig pairs infos events).1.invM, (runSig pairs infos events).1.leadpt,
          (runSig pairs infos events).1.subleadpt, (runSig pairs infos events).1.weights⟩] ∧
      ∀ b ∈ (runSig pairs infos events).2,
        b.mll.length = (runSig pairs infos events).1.kf ∧
        b.lead.length = (runSig pairs infos events).1.kf ∧
        b.sublead.length = (runSig pairs infos events).1.kf ∧
        b.weight.length = (runSig pairs infos events).1.kf) ∧
    (∀ (pairs : List (ℕ × String)) (infos : String → SampleInfo) (events : List Event),
      (runBck pairs infos events).2 =
        [⟨(runBck pairs infos events).1.invM, (runBck pairs infos events).1.leadpt,
          (runBck pairs infos events).1.subleadpt, (runBck pairs infos events).1.weights⟩] ∧
      ∀ b ∈ (runBck pairs infos events).2,
        b.mll.length = (runBck pairs infos events).1.kf ∧
        b.lead.length = (runBck pairs infos events).1.kf ∧
        b.sublead.length = (runBck pairs infos events).1.kf ∧
        b.weight.length = (runBck pairs infos events).1.kf) ∧
    (∀ events : List Event,
      (runData events).2 =
        [⟨(runData events).1.invM, (runData events).1.leadpt,
          (runData events).1.subleadpt, (runData events).1.weights⟩] ∧
      ∀ b ∈ (runData events).2,
        b.mll.length = (runData events).1.kf ∧
        b.lead.length = (runData events).1.kf ∧
        b.sublead.length = (runData events).1.kf ∧
        b.weight.length = (runData events).1.kf) := by
  have hsI : sigInit.lensOk := ⟨rfl, rfl, rfl, rfl⟩
  have hrI : runInit.lensOk := ⟨rfl, rfl, rfl, rfl⟩
  refine ⟨fun pairs infos events => lensOk_foldSig pairs infos events sigInit hsI,
    fun pairs infos events => lensOk_foldBck pairs infos events runInit hrI,
    fun events => lensOk_foldData events runInit hrI,
    stepSig_dichotomy, ?_, ?_, ?_⟩
  · intro pairs infos events
    refine ⟨rfl, ?_⟩
    intro b hb
    have hfin := lensOk_foldSig pairs infos events sigInit hsI
    rcases List.mem_singleton.1 hb with rfl
    exact hfin
  · intro pairs infos events
    refine ⟨rfl, ?_⟩
    intro b hb
    have hfin := lensOk_foldBck pairs infos events runInit hrI
    rcases List.mem_singleton.1 hb with rfl
    exact hfin
  · intro events
    refine ⟨rfl, ?_⟩
    intro b hb
    have hfin := lensOk_foldData events runInit hrI
    rcases List.mem_singleton.1 hb with rfl
    exact hfin

/-! ## Claim C10 -/

/-- Number of leptons of a list satisfying the good-lepton predicate. -/
def goodCount : List Lepton → ℕ
  | [] => 0
  | l :: r => (if goodLep l then 1 else 0) + goodCount r

lemma elCond_muCond_exclusive (l : Lepton) : ¬ (elCond l ∧ muCond l) := by
  rintro ⟨⟨h1, -⟩, ⟨h2, -⟩⟩
  rw [h1] at h2
  norm_num at h2

lemma lepUpd_fst (j : ℕ) (l : Lepton) (st : ℕ × ℕ × ℕ) :
    (lepUpd j l st).1 = st.1 + (if goodLep l then 1 else 0) := by
  by_cases hpre : lepPre l
  · by_cases hel : elCond l
    · have hmu : ¬ muCond l := fun hm => elCond_muCond_exclusive l ⟨hel, hm⟩
      by_cases heip : elIP l <;>
        simp [lepUpd, elStep, muStep, goodLep, hpre, hel, heip, hmu]
    · by_cases hmu : muCond l
      · by_cases hmip : muIP l <;>
          simp [lepUpd, elStep, muStep, goodLep, hpre, hel, hmu, hmip]
      · simp [lepUpd, elStep, muStep, goodLep, hpre, hel, hmu]
  · simp [lepUpd, goodLep, hpre]

lemma loopAux_fst : ∀ (ls : List Lepton) (j : ℕ) (st : ℕ × ℕ × ℕ),
    (loopAux j ls st).1 = st.1 + goodCount ls := by
  intro ls
  induction ls with
  | nil => intro j st; simp [loopAux, goodCount]
  | cons l r ih =>
      intro j st
      simp only [loopAux, goodCount]
      rw [ih, lepUpd_fst, add_assoc]

lemma goodLoop_fst (e : Event) (i1 i2 : ℕ) :
    (goodLoop e i1 i2).1 = goodCount e.leps := by
  simp [goodLoop, loopAux_fst]

/-- Claim C10: each lepton increments `goodlep` at most once (the
electron and muon branches are mutually exclusive, and the increment is
one exactly when the lepton satisfies the good-lepton predicate), so the
loop's final `goodlep` equals the number of the event's leptons
satisfying the predicate — for any retained incoming indices — and for a
two-lepton event the `goodlep == 2` gate passes iff both leptons
individually satisfy the predicate. -/
theorem claim10_thm :
    (∀ (j : ℕ) (l : Lepton) (st : ℕ × ℕ × ℕ),
      (lepUpd j l st).1 = st.1 + (if goodLep l then 1 else 0)) ∧
    (∀ (e : Event) (i1 i2 : ℕ), (goodLoop e i1 i2).1 = goodCount e.leps) ∧
    (∀ (e : Event) (i1 i2 : ℕ), e.lep_n = 2 →
      ((goodLoop e i1 i2).1 = 2 ↔ goodLep (e.lep 0) ∧ goodLep (e.lep 1))) := by
  refine ⟨lepUpd_fst, goodLoop_fst, ?_⟩
  intro e i1 i2 hn
  obtain ⟨a, b, hab⟩ := List.length_eq_two.1 hn
  rw [goodLoop_fst, hab]
  have h0 : e.lep 0 = a := by rw [Event.lep, hab]; rfl
  have h1 : e.lep 1 = b := by rw [Event.lep, hab]; rfl
  rw [h0, h1]
  by_cases hga : goodLep a <;> by_cases hgb : goodLep b <;>
    simp [goodCount, hga, hgb]

/-- Claim C10, witness: on the concrete two-electron event the gate
equivalence holds with both sides true. -/
theorem claim10_witness :
    (goodLoop eC 0 0).1 = 2 ↔ goodLep (eC.lep 0) ∧ goodLep (eC.lep 1) :=
  claim10_thm.2.2 eC 0 0 (by simp [Event.lep_n, eC])

end ZAnalysis

end
